import Mathlib

/-!
# Verification of the route-weather-planner service

A shallow embedding of `src/route-weather-planner/app.py` (the Flask route
planner) together with proofs about its core algorithms: the route polyline
sampler (`calculate_route_points`), the postal-code deduplicator and the
weather-enrichment loop inside the `get_route_weather` handler, and the
weather fetcher `get_weather_data`.

Modelling conventions:
* Python floats are modelled as exact rationals (`ℚ`); `math.ceil` is `⌈·⌉`
  and Python `int(x)` (truncation toward zero) is `pyTrunc`.
* Python list indexing `l[i]` (which supports negative indices and raises
  `IndexError` out of bounds) is `pyGet`, returning `none` for `IndexError`.
* External collaborators (Google geocoding, Nominatim, the Google directions
  API and the weather backend) are oracle functions passed in as parameters:
  `get_zip_code` becomes `zipOf : ℚ → ℚ → Option Zip`, the weather backend
  becomes `backend : Zip → Except String BackendResp`, geocoding becomes
  `geocode : String → Except String (ℚ × ℚ × Option Zip)` and the directions
  call becomes `directions : DirectionsQuery → List (List Leg)`.
* Postal codes are an opaque type `Zip` with decidable equality: the code
  only ever compares them and tests Python truthiness, and a resolved postal
  code is a nonempty string, so truthiness is `Option.isSome`.
* A request aborts with an uncaught-in-route exception (HTTP 500) or a
  client error (HTTP 400); this is the `HandlerResult` type.
-/

set_option linter.unusedSectionVars false

deriving instance DecidableEq for Except

namespace RouteWeather

/-- One step of a directions-provider leg: the decoded polyline vertices
(`polyline.decode(step['polyline']['points'])`, a list of `(lat, lng)` pairs)
and the step distance in meters (`step['distance']['value']`). -/
structure Step where
  path : List (ℚ × ℚ)
  distance : ℚ
deriving DecidableEq

/-- One leg of the directions result: `leg['steps']`. -/
structure Leg where
  steps : List Step
deriving DecidableEq

/-- A sample point emitted by `calculate_route_points`:
`{'lat': …, 'lng': …, 'distance': …}`. -/
structure SamplePoint where
  lat : ℚ
  lng : ℚ
  distance : ℚ
deriving DecidableEq, Inhabited

/-- Python `int(x)` on a float: truncation toward zero. -/
def pyTrunc (q : ℚ) : ℤ :=
  if 0 ≤ q then ⌊q⌋ else ⌈q⌉

/-- Python list indexing `l[i]`: negative indices count from the end, and an
out-of-range index raises `IndexError`, modelled as `none`. -/
def pyGet (l : List α) (i : ℤ) : Option α :=
  if 0 ≤ i then l.get? i.toNat
  else if 0 ≤ i + l.length then l.get? (i + l.length).toNat
  else none

/-- The body of the sampler's inner `for i in range(num_intervals + 1)` loop
in `calculate_route_points` (app.py lines 150-168): pick the vertex for
fraction `i / num_intervals` and tag it with its distance. `none` means the
vertex lookup raised `IndexError`. -/
def samplePointAt (s : Step) (total num_intervals : ℚ) (i : ℕ) :
    Except String SamplePoint :=
  let fraction : ℚ := (i : ℚ) / num_intervals
  let point? : Option (ℚ × ℚ) :=
    if fraction = 0 then pyGet s.path 0
    else if fraction = 1 then pyGet s.path (-1)
    else pyGet s.path (pyTrunc (fraction * (((s.path.length : ℤ) - 1 : ℤ) : ℚ)))
  match point? with
  | some p => .ok ⟨p.1, p.2, total + s.distance * fraction⟩
  | none => .error "list index out of range"

/-- Runs a loop body over a list of indices, collecting the results in order
and aborting on the first raised exception (the semantics of a Python `for`
loop that appends to an accumulator). -/
def collectPoints (f : ℕ → Except String SamplePoint) :
    List ℕ → Except String (List SamplePoint)
  | [] => .ok []
  | i :: is =>
    match f i with
    | .error e => .error e
    | .ok p =>
      match collectPoints f is with
      | .error e => .error e
      | .ok ps => .ok (p :: ps)

/-- The per-step body of `calculate_route_points` (app.py lines 137-176):
either `num_intervals + 1` vertex-snapped points for a long step, or the
single end vertex `path[-1]` for a short one. -/
def sampleStep (interval_meters total : ℚ) (s : Step) :
    Except String (List SamplePoint) :=
  if s.distance > interval_meters then
    let num_intervals : ℤ := ⌈s.distance / interval_meters⌉
    collectPoints (samplePointAt s total (num_intervals : ℚ))
      (List.range (num_intervals.toNat + 1))
  else
    match pyGet s.path (-1) with
    | some p => .ok [⟨p.1, p.2, total + s.distance⟩]
    | none => .error "list index out of range"

/-- The steps of all legs in traversal order: the two nested `for` loops of
`calculate_route_points` visit exactly this flattened list, threading
`total_distance` through. -/
def stepsOfRoute (route : List Leg) : List Step :=
  (route.map Leg.steps).flatten

/-- Folds `sampleStep` over a list of steps, advancing `total_distance` by
each step's distance (app.py line 178). -/
def sampleSteps (interval_meters : ℚ) (total : ℚ) :
    List Step → Except String (List SamplePoint)
  | [] => .ok []
  | s :: rest =>
    match sampleStep interval_meters total s with
    | .error e => .error e
    | .ok pts =>
      match sampleSteps interval_meters (total + s.distance) rest with
      | .error e => .error e
      | .ok more => .ok (pts ++ more)

/-- The sampler `calculate_route_points(directions_result, interval_distance)`
(app.py lines 125-180). `interval_distance` is in miles;
`interval_meters = interval_distance * 1609.34`. -/
def calculate_route_points (route : List Leg) (interval_distance : ℚ) :
    Except String (List SamplePoint) :=
  sampleSteps (interval_distance * 1609.34) 0 (stepsOfRoute route)

/-! ## Route stops, dedup by postal code (app.py lines 243-291) -/

/-- An entry of `route_path` built inside `get_route_weather`:
`{'lat': …, 'lon': …, 'address': …, 'is_stop': …}`. -/
structure RouteStop where
  lat : ℚ
  lon : ℚ
  address : String
  is_stop : Bool
deriving DecidableEq

/-- A resolved input address as stored in the handler's `coordinates` list:
`{'lat': lat, 'lon': lon, 'address': address}`. -/
structure Coord where
  lat : ℚ
  lon : ℚ
  address : String
deriving DecidableEq, Inhabited

variable {Zip : Type} [DecidableEq Zip]

/-- The `for point in route_points` thinning loop of `get_route_weather`
(app.py lines 265-278): a point is kept exactly when its reverse-geocoded
postal code is truthy and differs from `last_zip`, which is then updated.
`zipOf` is the `get_zip_code` oracle. -/
def dedupPoints (zipOf : ℚ → ℚ → Option Zip) :
    Option Zip → List SamplePoint → List RouteStop
  | _, [] => []
  | last_zip, point :: rest =>
    let current_zip := zipOf point.lat point.lng
    if current_zip.isSome ∧ current_zip ≠ last_zip then
      ⟨point.lat, point.lng, "Route Point", false⟩ ::
        dedupPoints zipOf current_zip rest
    else
      dedupPoints zipOf last_zip rest

/-- Builds `route_path` (app.py lines 243-291): the origin stop, then the
deduplicated sample points, then the destination stop. `coordinates` has at
least two entries when this runs (validated earlier in the handler), so the
`headD`/`getLastD` defaults are never used there. `last_zip` starts as the
origin's reverse-geocoded postal code (it stays `None` when that lookup
fails, which coincides with `zipOf` returning `none`). -/
def buildRoutePath (zipOf : ℚ → ℚ → Option Zip) (coordinates : List Coord)
    (route_points : List SamplePoint) : List RouteStop :=
  let origin := coordinates.headD default
  let dest := coordinates.getLastD default
  let origin_zip := zipOf origin.lat origin.lon
  ⟨origin.lat, origin.lon, origin.address, true⟩ ::
    (dedupPoints zipOf origin_zip route_points ++
      [⟨dest.lat, dest.lon, dest.address, true⟩])

/-! ## Weather fetching and enrichment (app.py lines 91-123 and 298-322) -/

/-- The JSON body returned by `GET {API_URL}/weather/{zip_code}`; absent
temperature keys read as `None` via `.get`, and `country` defaults to
`'US'` when absent. -/
structure BackendResp where
  temperatureC : Option ℚ
  temperatureF : Option ℚ
  summary : String
  country : Option String
deriving DecidableEq

/-- The weather dict attached to a route point. `country` is `none` for the
sentinel synthesized in the enrichment loop's breaker-open branch, which has
no `'country'` key. -/
structure Weather (Zip : Type) where
  zip_code : Option Zip
  temperatureC : Option ℚ
  temperatureF : Option ℚ
  summary : String
  country : Option String
deriving DecidableEq

/-- The fetcher `get_weather_data(lat, lon)` (app.py lines 91-123), as
called from the enrichment loop: resolve a zip code (returning `None` when
that fails), then query the backend; a `RequestException` from the backend
yields the sentinel snapshot instead of propagating. -/
def get_weather_data (zipOf : ℚ → ℚ → Option Zip)
    (backend : Zip → Except String BackendResp) (lat lon : ℚ) :
    Option (Weather Zip) :=
  match zipOf lat lon with
  | none => none
  | some zip_code =>
    match backend zip_code with
    | .ok wd =>
      some ⟨some zip_code, wd.temperatureC, wd.temperatureF, wd.summary,
        some (wd.country.getD "US")⟩
    | .error _ =>
      some ⟨some zip_code, none, none, "Weather service unavailable",
        some "US"⟩

/-- A `route_with_weather` entry (app.py lines 315-322): the route stop's
fields plus the weather dict (possibly `None`) and its zip code. -/
structure RouteEntry (Zip : Type) where
  lat : ℚ
  lon : ℚ
  address : String
  is_stop : Bool
  weather : Option (Weather Zip)
  zip_code : Option Zip
deriving DecidableEq

/-- One iteration of the enrichment loop (app.py lines 302-322): fetch or
synthesize the weather dict, flip the breaker when a truthy dict has
`temperatureC` equal to `None`, and append the annotated entry. Returns the
entry together with the breaker state for the next iteration. -/
def weatherStep (zipOf : ℚ → ℚ → Option Zip)
    (backend : Zip → Except String BackendResp)
    (weather_service_available : Bool) (point : RouteStop) :
    RouteEntry Zip × Bool :=
  if weather_service_available then
    let weather := get_weather_data zipOf backend point.lat point.lon
    let degraded : Bool :=
      match weather with
      | some w => w.temperatureC.isNone
      | none => false
    (⟨point.lat, point.lon, point.address, point.is_stop, weather,
        weather.bind Weather.zip_code⟩,
      if degraded then false else weather_service_available)
  else
    let weather : Weather Zip :=
      ⟨zipOf point.lat point.lon, none, none, "Weather service unavailable",
        none⟩
    (⟨point.lat, point.lon, point.address, point.is_stop, some weather,
        weather.zip_code⟩,
      weather_service_available)

/-- The whole enrichment loop (app.py lines 298-322), threading the
`weather_service_available` breaker through `weatherStep`. -/
def addWeather (zipOf : ℚ → ℚ → Option Zip)
    (backend : Zip → Except String BackendResp) :
    Bool → List RouteStop → List (RouteEntry Zip)
  | _, [] => []
  | avail, point :: rest =>
    let step := weatherStep zipOf backend avail point
    step.1 :: addWeather zipOf backend step.2 rest

/-! ## The request handler `get_route_weather` (app.py lines 186-332) -/

/-- The outcome of a `POST /get_route_weather` request: a JSON route
(HTTP 200), a client error (HTTP 400) or a server error (HTTP 500, from an
exception caught by the handler's `except` blocks). -/
inductive HandlerResult (Zip : Type) where
  | ok (route : List (RouteEntry Zip))
  | clientError (msg : String)
  | serverError (msg : String)
deriving DecidableEq

/-- Request preferences (app.py lines 219-232). -/
structure Preferences where
  avoid_highways : Bool
  avoid_tolls : Bool
  optimize_route : Bool
deriving DecidableEq

/-- The arguments of the `gmaps.directions` call (app.py lines 226-234). -/
structure DirectionsQuery where
  origin : String
  destination : String
  waypoints : List String
  optimize_waypoints : Bool
  avoid : List String
deriving DecidableEq

/-- The `for address in addresses` geocoding loop (app.py lines 206-216):
resolve every address via the `get_coordinates_and_zip` oracle, aborting
with the oracle's error message on the first failure; the resolved zip code
is discarded at this call site. -/
def resolveAll (geocode : String → Except String (ℚ × ℚ × Option Zip)) :
    List String → Except String (List Coord)
  | [] => .ok []
  | address :: rest =>
    match geocode address with
    | .error msg => .error msg
    | .ok (lat, lon, _zip) =>
      match resolveAll geocode rest with
      | .error msg => .error msg
      | .ok coords => .ok (⟨lat, lon, address⟩ :: coords)

/-- The directions query built by the handler (app.py lines 219-234):
origin `coordinates[0]`, destination `coordinates[-1]`, waypoints
`coordinates[1:-1]`, and the avoid list from the preferences. -/
def mkQuery (coordinates : List Coord) (prefs : Preferences) :
    DirectionsQuery :=
  ⟨(coordinates.headD default).address,
    (coordinates.getLastD default).address,
    ((coordinates.drop 1).dropLast).map Coord.address,
    prefs.optimize_route,
    (if prefs.avoid_highways then ["highways"] else []) ++
      (if prefs.avoid_tolls then ["tolls"] else [])⟩

/-- The `POST /get_route_weather` handler (app.py lines 186-332) over the
four external oracles. The `logger.info` f-string on line 195 evaluates
`addresses[0]` and `addresses[-1]` before any validation, so an empty
address list raises `IndexError`, which the outer `except` turns into an
HTTP 500 with the exception's text. -/
def get_route_weather (geocode : String → Except String (ℚ × ℚ × Option Zip))
    (directions : DirectionsQuery → List (List Leg))
    (zipOf : ℚ → ℚ → Option Zip)
    (backend : Zip → Except String BackendResp)
    (addresses : List String) (interval_distance : ℚ)
    (prefs : Preferences) : HandlerResult Zip :=
  if addresses.isEmpty then .serverError "list index out of range"
  else if addresses.length < 2 then
    .clientError "At least two addresses are required"
  else if interval_distance < 1 ∨ interval_distance > 100 then
    .clientError "Interval distance must be between 1 and 100 miles"
  else
    match resolveAll geocode addresses with
    | .error msg => .clientError msg
    | .ok coordinates =>
      match directions (mkQuery coordinates prefs) with
      | [] => .clientError "Could not calculate route"
      | directionsResult :: _ =>
        match calculate_route_points directionsResult interval_distance with
        | .error e => .serverError ("Error calculating route: " ++ e)
        | .ok route_points =>
          .ok (addWeather zipOf backend true
            (buildRoutePath zipOf coordinates route_points))

/-! ## Spec-side description of the sampler (spec section 4.3)

The following two definitions follow the wording of the specification, to be
compared with `calculate_route_points` above: per step, if the step's
distance is at most `interval_m` emit exactly one SamplePoint at the step's
final vertex at distance `total + step_distance`; otherwise, with
`n = ceil(step_distance / interval_m)`, emit `n + 1` SamplePoints for
`i = 0..n`, each at the path vertex of index
`floor((i/n) * (len(path) - 1))`, at distance
`total + step_distance * (i/n)`; then advance `total` by `step_distance`. -/

/-- The points the spec prescribes for one step (claim C1's wording). -/
def specStepPoints (interval_m total : ℚ) (s : Step) : List SamplePoint :=
  if s.distance ≤ interval_m then
    [⟨(s.path.getLastD default).1, (s.path.getLastD default).2,
      total + s.distance⟩]
  else
    let n : ℕ := (⌈s.distance / interval_m⌉).toNat
    (List.range (n + 1)).map fun (i : ℕ) =>
      let fraction : ℚ := (i : ℚ) / (n : ℚ)
      let idx : ℕ := (⌊fraction * ((s.path.length : ℚ) - 1)⌋).toNat
      ⟨(s.path.getD idx default).1, (s.path.getD idx default).2,
        total + s.distance * fraction⟩

/-- The points the spec prescribes for a list of steps processed in order
with a running `total_distance`. -/
def specRoutePoints (interval_m : ℚ) (total : ℚ) :
    List Step → List SamplePoint
  | [] => []
  | s :: rest =>
    specStepPoints interval_m total s ++
      specRoutePoints interval_m (total + s.distance) rest

/-! ## Helper lemmas about `pyGet` and `collectPoints` -/

theorem pyGet_nonneg {α : Type _} (l : List α) (i : ℤ) (h : 0 ≤ i) :
    pyGet l i = l.get? i.toNat := by
  simp [pyGet, h]

theorem pyGet_neg_one {α : Type _} (l : List α) (h : l ≠ []) :
    pyGet l (-1) = l.getLast? := by
  have hlen : 1 ≤ l.length := List.length_pos.mpr h
  have h0 : ¬ (0 : ℤ) ≤ -1 := by norm_num
  have h1 : (0 : ℤ) ≤ -1 + l.length := by omega
  have h2 : ((-1 : ℤ) + l.length).toNat = l.length - 1 := by omega
  simp only [pyGet, h0, if_false, h1, if_true, h2]
  rw [List.get?_eq_getElem?, List.getLast?_eq_getElem?]

theorem pyGet_nil {α : Type _} (i : ℤ) : pyGet ([] : List α) i = none := by
  rcases le_or_lt 0 i with h | h
  · simp [pyGet, h]
  · have h0 : ¬ (0 : ℤ) ≤ i := not_le.mpr h
    have h1 : ¬ (0 : ℤ) ≤ i + ([] : List α).length := by simp; omega
    simp [pyGet, h0, h1]

theorem collectPoints_eq_map (f : ℕ → Except String SamplePoint)
    (g : ℕ → SamplePoint) :
    ∀ (l : List ℕ), (∀ i ∈ l, f i = .ok (g i)) →
      collectPoints f l = .ok (l.map g)
  | [], _ => rfl
  | i :: is, h => by
    rw [collectPoints, h i (by simp),
      collectPoints_eq_map f g is fun j hj => h j (by simp [hj])]
    simp

theorem collectPoints_ok_mem {f : ℕ → Except String SamplePoint} :
    ∀ {l : List ℕ} {ps : List SamplePoint}, collectPoints f l = .ok ps →
      ∀ i ∈ l, ∃ p, f i = .ok p := by
  intro l
  induction l with
  | nil => simp
  | cons i is ih =>
    intro ps h j hj
    rw [collectPoints] at h
    rcases hfi : f i with e | p <;> rw [hfi] at h
    · exact absurd h (by simp)
    · rcases hrec : collectPoints f is with e | qs <;> rw [hrec] at h
      · exact absurd h (by simp)
      · rcases List.mem_cons.mp hj with rfl | hj'
        · exact ⟨p, hfi⟩
        · exact ih hrec j hj'

theorem get?_eq_some_getD {α : Type _} (l : List α) (d : α) (k : ℕ)
    (hk : k < l.length) : l.get? k = some (l.getD k d) := by
  rw [List.getD_eq_getD_get?]
  cases h : l.get? k with
  | none =>
    rw [List.get?_eq_getElem?, List.getElem?_eq_none_iff] at h
    omega
  | some a => rfl

theorem getLast?_eq_some_getLastD {α : Type _} (l : List α) (d : α)
    (h : l ≠ []) : l.getLast? = some (l.getLastD d) := by
  rw [List.getLastD_eq_getLast?]
  cases hl : l.getLast? with
  | none => exact absurd (List.getLast?_eq_none_iff.mp hl) h
  | some a => rfl

theorem getLastD_eq_getD {α : Type _} (l : List α) (d : α) (h : l ≠ []) :
    l.getLastD d = l.getD (l.length - 1) d := by
  have hlen : 1 ≤ l.length := List.length_pos.mpr h
  have h1 := getLast?_eq_some_getLastD l d h
  have h2 := get?_eq_some_getD l d (l.length - 1) (by omega)
  rw [List.getLast?_eq_getElem?, ← List.get?_eq_getElem?, h2] at h1
  exact (Option.some_injective _ h1).symm

/-- The core refinement of the sampler's per-step loop body: on a step with
a nonempty decoded path and a positive interval, the code emits exactly the
points the spec describes. -/
theorem sampleStep_eq_spec (interval_m total : ℚ) (s : Step)
    (him : 0 < interval_m) (hne : s.path ≠ []) :
    sampleStep interval_m total s = .ok (specStepPoints interval_m total s) := by
  have hlen : 1 ≤ s.path.length := List.length_pos.mpr hne
  have hlencast : (((s.path.length : ℤ) - 1 : ℤ) : ℚ) = (s.path.length : ℚ) - 1 := by
    push_cast
    ring
  by_cases hgt : s.distance > interval_m
  · -- long step: `num_intervals + 1` vertex-snapped points
    have hratio : 1 < s.distance / interval_m := (one_lt_div him).mpr hgt
    have hN0 : 0 < ⌈s.distance / interval_m⌉ :=
      Int.ceil_pos.mpr (lt_trans one_pos hratio)
    have hcast : ((⌈s.distance / interval_m⌉.toNat : ℕ) : ℚ) =
        ((⌈s.distance / interval_m⌉ : ℤ) : ℚ) := by
      exact_mod_cast congrArg (fun z : ℤ => (z : ℚ))
        (Int.toNat_of_nonneg (le_of_lt hN0))
    have hNQ0 : (0 : ℚ) < ((⌈s.distance / interval_m⌉ : ℤ) : ℚ) := by
      exact_mod_cast hN0
    rw [sampleStep, if_pos hgt, specStepPoints, if_neg (not_le.mpr hgt)]
    simp only []
    apply collectPoints_eq_map
    intro i hi
    have hiN : i ≤ ⌈s.distance / interval_m⌉.toNat :=
      Nat.lt_succ_iff.mp (List.mem_range.mp hi)
    simp only [samplePointAt, hcast]
    rcases Nat.eq_zero_or_pos i with hi0 | hi0
    · -- i = 0: both sides use the first vertex
      subst hi0
      rw [if_pos (by simp)]
      rw [pyGet_nonneg s.path 0 le_rfl]
      simp only [Int.toNat_zero]
      rw [get?_eq_some_getD s.path default 0 (by omega)]
      simp
    · rcases eq_or_lt_of_le hiN with hiN' | hiN'
      · -- i = n: both sides use the last vertex
        have hfrac1 : ((i : ℕ) : ℚ) / ((⌈s.distance / interval_m⌉ : ℤ) : ℚ) = 1 := by
          rw [show ((i : ℕ) : ℚ) = ((⌈s.distance / interval_m⌉ : ℤ) : ℚ) from by
            rw [← hcast]; exact_mod_cast congrArg (fun k : ℕ => (k : ℚ)) hiN']
          exact div_self (ne_of_gt hNQ0)
        rw [hfrac1, if_neg one_ne_zero, if_pos rfl]
        rw [pyGet_neg_one s.path hne, getLast?_eq_some_getLastD s.path default hne]
        have hidx : (⌊(1 : ℚ) * ((s.path.length : ℚ) - 1)⌋).toNat = s.path.length - 1 := by
          rw [one_mul, ← hlencast, Int.floor_intCast]
          omega
        simp only [hfrac1, hidx, getLastD_eq_getD s.path default hne, mul_one]
      · -- 0 < i < n: both sides use the floor-indexed vertex
        have hfrac0 : ((i : ℕ) : ℚ) / ((⌈s.distance / interval_m⌉ : ℤ) : ℚ) ≠ 0 :=
          div_ne_zero (by exact_mod_cast (by omega : i ≠ 0)) (ne_of_gt hNQ0)
        have hfracle : ((i : ℕ) : ℚ) / ((⌈s.distance / interval_m⌉ : ℤ) : ℚ) ≤ 1 := by
          rw [div_le_one hNQ0, ← hcast]
          exact_mod_cast le_of_lt hiN'
        have hfrac1 : ((i : ℕ) : ℚ) / ((⌈s.distance / interval_m⌉ : ℤ) : ℚ) ≠ 1 := by
          intro hc
          rw [div_eq_one_iff_eq (ne_of_gt hNQ0), ← hcast] at hc
          exact absurd (by exact_mod_cast hc) (by omega)
        have hfracnn : 0 ≤ ((i : ℕ) : ℚ) / ((⌈s.distance / interval_m⌉ : ℤ) : ℚ) :=
          div_nonneg (Nat.cast_nonneg i) (le_of_lt hNQ0)
        have hlnn : (0 : ℚ) ≤ (s.path.length : ℚ) - 1 := by
          have : (1 : ℚ) ≤ (s.path.length : ℚ) := by exact_mod_cast hlen
          linarith
        have hxnn : 0 ≤ ((i : ℕ) : ℚ) / ((⌈s.distance / interval_m⌉ : ℤ) : ℚ) *
            ((s.path.length : ℚ) - 1) := mul_nonneg hfracnn hlnn
        have hxle : ((i : ℕ) : ℚ) / ((⌈s.distance / interval_m⌉ : ℤ) : ℚ) *
            ((s.path.length : ℚ) - 1) ≤ (s.path.length : ℚ) - 1 :=
          mul_le_of_le_one_left hlnn hfracle
        have hfloorlen : ⌊(s.path.length : ℚ) - 1⌋ = (s.path.length : ℤ) - 1 := by
          rw [← hlencast, Int.floor_intCast]
        have hfl : ⌊((i : ℕ) : ℚ) / ((⌈s.distance / interval_m⌉ : ℤ) : ℚ) *
            ((s.path.length : ℚ) - 1)⌋ ≤ (s.path.length : ℤ) - 1 := by
          have h := Int.floor_le_floor hxle
          rwa [hfloorlen] at h
        have hflnn : 0 ≤ ⌊((i : ℕ) : ℚ) / ((⌈s.distance / interval_m⌉ : ℤ) : ℚ) *
            ((s.path.length : ℚ) - 1)⌋ := Int.floor_nonneg.mpr hxnn
        rw [if_neg hfrac0, if_neg hfrac1, hlencast]
        rw [show pyTrunc (((i : ℕ) : ℚ) / ((⌈s.distance / interval_m⌉ : ℤ) : ℚ) *
            ((s.path.length : ℚ) - 1)) =
            ⌊((i : ℕ) : ℚ) / ((⌈s.distance / interval_m⌉ : ℤ) : ℚ) *
              ((s.path.length : ℚ) - 1)⌋ from if_pos hxnn]
        rw [pyGet_nonneg _ _ hflnn]
        rw [get?_eq_some_getD s.path default _ (by omega)]
  · -- short step: single end vertex at distance `total + step_distance`
    rw [sampleStep, if_neg hgt, specStepPoints, if_pos (not_lt.mp hgt)]
    rw [pyGet_neg_one s.path hne, getLast?_eq_some_getLastD s.path default hne]

theorem sampleSteps_eq_spec (interval_m : ℚ) (him : 0 < interval_m) :
    ∀ (steps : List Step) (total : ℚ), (∀ s ∈ steps, s.path ≠ []) →
      sampleSteps interval_m total steps =
        .ok (specRoutePoints interval_m total steps)
  | [], _, _ => rfl
  | s :: rest, total, h => by
    rw [sampleSteps, sampleStep_eq_spec interval_m total s him (h s (by simp)),
      sampleSteps_eq_spec interval_m him rest (total + s.distance)
        (fun t ht => h t (by simp [ht]))]
    rfl

/-- C1: for every step of every leg, processed in order with a running
`total_distance`, the sampler emits exactly the points described by the
spec: one point at the step's final vertex at distance
`total_distance + step_distance` when `step_distance ≤ interval_m`, and
otherwise, with `n = ceil(step_distance / interval_m)`, points for
`i = 0..n` at the vertex of index `floor((i/n) * (len(path) - 1))` at
distance `total_distance + step_distance * (i/n)`; `total_distance` then
advances by `step_distance` (see `specStepPoints`/`specRoutePoints`). -/
theorem sampler_emits_spec_points (route : List Leg) (q : ℚ) (hq : 0 < q)
    (hpaths : ∀ leg ∈ route, ∀ s ∈ leg.steps, s.path ≠ []) :
    calculate_route_points route q =
      .ok (specRoutePoints (q * 1609.34) 0 (stepsOfRoute route)) := by
  rw [calculate_route_points]
  apply sampleSteps_eq_spec _ (mul_pos hq (by norm_num))
  intro s hs
  rw [stepsOfRoute, List.mem_flatten] at hs
  obtain ⟨l, hl, hsl⟩ := hs
  obtain ⟨leg, hleg, rfl⟩ := List.mem_map.mp hl
  exact hpaths leg hleg s hsl

/-- A small concrete route used to instantiate theorems with hypotheses:
one leg with one short step (below any interval of ≥ 1 mile) and one long
step of 5 km. -/
def witRoute : List Leg :=
  [⟨[⟨[(1, 1), (2, 2)], 5⟩, ⟨[(3, 3), (4, 4), (5, 5)], 5000⟩]⟩]

theorem sampler_emits_spec_points_witness :
    (0 : ℚ) < 1 ∧ (∀ leg ∈ witRoute, ∀ s ∈ leg.steps, s.path ≠ []) ∧
      calculate_route_points witRoute 1 =
        .ok (specRoutePoints (1 * 1609.34) 0 (stepsOfRoute witRoute)) :=
  ⟨by norm_num, by decide,
    sampler_emits_spec_points witRoute 1 (by norm_num) (by decide)⟩

/-! ## Monotonicity of the sampler output in cumulative distance -/

theorem specStepPoints_bounds (interval_m total : ℚ) (s : Step)
    (him : 0 < interval_m) (hd : 0 ≤ s.distance) :
    (∀ p ∈ specStepPoints interval_m total s,
        total ≤ p.distance ∧ p.distance ≤ total + s.distance) ∧
      List.Chain' (fun a b => a.distance ≤ b.distance)
        (specStepPoints interval_m total s) := by
  rw [specStepPoints]
  by_cases hle : s.distance ≤ interval_m
  · rw [if_pos hle]
    refine ⟨?_, by simp⟩
    intro p hp
    simp only [List.mem_singleton] at hp
    subst hp
    constructor
    · simp only []
      linarith
    · simp only []
      linarith
  · rw [if_neg hle]
    simp only []
    push_neg at hle
    have hd0 : 0 < s.distance := lt_trans him hle
    have hN0 : 0 < ⌈s.distance / interval_m⌉ :=
      Int.ceil_pos.mpr (div_pos hd0 him)
    have hNQ : (0 : ℚ) < ((⌈s.distance / interval_m⌉.toNat : ℕ) : ℚ) := by
      exact_mod_cast (by omega : 0 < ⌈s.distance / interval_m⌉.toNat)
    constructor
    · intro p hp
      rw [List.mem_map] at hp
      obtain ⟨i, hi, rfl⟩ := hp
      have hin : i ≤ ⌈s.distance / interval_m⌉.toNat :=
        Nat.lt_succ_iff.mp (List.mem_range.mp hi)
      have hf0 : 0 ≤ (i : ℚ) / ((⌈s.distance / interval_m⌉.toNat : ℕ) : ℚ) :=
        div_nonneg (Nat.cast_nonneg i) (le_of_lt hNQ)
      have hf1 : (i : ℚ) / ((⌈s.distance / interval_m⌉.toNat : ℕ) : ℚ) ≤ 1 :=
        (div_le_one hNQ).mpr (by exact_mod_cast hin)
      constructor
      · simp only []
        nlinarith
      · simp only []
        nlinarith
    · rw [List.chain'_map]
      apply (List.chain'_range_succ _ _).mpr
      intro m _hm
      simp only []
      have hmono : ((m : ℕ) : ℚ) / ((⌈s.distance / interval_m⌉.toNat : ℕ) : ℚ) ≤
          ((m.succ : ℕ) : ℚ) / ((⌈s.distance / interval_m⌉.toNat : ℕ) : ℚ) := by
        gcongr
        exact_mod_cast Nat.le_succ m
      nlinarith

theorem mem_of_mem_getLast? {α : Type _} {l : List α} {x : α}
    (h : x ∈ l.getLast?) : x ∈ l := by
  rw [Option.mem_def, List.getLast?_eq_getElem?] at h
  obtain ⟨hlt, hx⟩ := List.getElem?_eq_some.mp h
  exact hx ▸ List.getElem_mem hlt

theorem specRoutePoints_bounds (interval_m : ℚ) (him : 0 < interval_m) :
    ∀ (steps : List Step) (total : ℚ), (∀ s ∈ steps, 0 ≤ s.distance) →
      (∀ p ∈ specRoutePoints interval_m total steps, total ≤ p.distance) ∧
        List.Chain' (fun a b => a.distance ≤ b.distance)
          (specRoutePoints interval_m total steps)
  | [], total, _ => by simp [specRoutePoints]
  | s :: rest, total, h => by
    rw [specRoutePoints]
    have hd := h s (by simp)
    have hstep := specStepPoints_bounds interval_m total s him hd
    have hrest := specRoutePoints_bounds interval_m him rest
      (total + s.distance) (fun t ht => h t (by simp [ht]))
    constructor
    · intro p hp
      rcases List.mem_append.mp hp with hp | hp
      · exact (hstep.1 p hp).1
      · linarith [hrest.1 p hp]
    · rw [List.chain'_append]
      refine ⟨hstep.2, hrest.2, ?_⟩
      intro x hx y hy
      have hxm := (hstep.1 x (mem_of_mem_getLast? hx)).2
      have hym := hrest.1 y (List.mem_of_mem_head? hy)
      linarith

/-! ## A successful sampler run implies every path was nonempty -/

theorem samplePointAt_nil_error (s : Step) (total n : ℚ) (i : ℕ)
    (h : s.path = []) :
    samplePointAt s total n i = .error "list index out of range" := by
  rw [samplePointAt]
  simp only [h, List.length_nil]
  split_ifs <;> simp [pyGet_nil]

theorem sampleStep_ok_path_ne_nil {interval_m total : ℚ} {s : Step}
    {pts : List SamplePoint} (h : sampleStep interval_m total s = .ok pts) :
    s.path ≠ [] := by
  intro hnil
  rw [sampleStep] at h
  by_cases hgt : s.distance > interval_m
  · rw [if_pos hgt] at h
    obtain ⟨p, hp⟩ := collectPoints_ok_mem h 0 (by simp)
    rw [samplePointAt_nil_error s total _ 0 hnil] at hp
    exact absurd hp (by simp)
  · rw [if_neg hgt, hnil, pyGet_nil] at h
    exact absurd h (by simp)

theorem sampleSteps_ok_paths {interval_m : ℚ} :
    ∀ {steps : List Step} {total : ℚ} {pts : List SamplePoint},
      sampleSteps interval_m total steps = .ok pts → ∀ s ∈ steps, s.path ≠ []
  | [], _, _, _ => by simp
  | s :: rest, total, pts, h => by
    rw [sampleSteps] at h
    rcases h1 : sampleStep interval_m total s with e | pts1 <;> rw [h1] at h
    · exact absurd h (by simp)
    · rcases h2 : sampleSteps interval_m (total + s.distance) rest
        with e | pts2 <;> rw [h2] at h
      · exact absurd h (by simp)
      · intro t ht
        rcases List.mem_cons.mp ht with rfl | ht'
        · exact sampleStep_ok_path_ne_nil h1
        · exact sampleSteps_ok_paths h2 t ht'

/-! ## Structure of the deduplicated route path (claims C2 and C3) -/

theorem dedupPoints_sublist (zipOf : ℚ → ℚ → Option Zip) :
    ∀ (lz : Option Zip) (pts : List SamplePoint), ∃ sub : List SamplePoint,
      sub.Sublist pts ∧
        dedupPoints zipOf lz pts =
          sub.map (fun p => ⟨p.lat, p.lng, "Route Point", false⟩)
  | _, [] => ⟨[], by simp, rfl⟩
  | lz, p :: rest => by
    rw [dedupPoints]
    by_cases hc : (zipOf p.lat p.lng).isSome ∧ zipOf p.lat p.lng ≠ lz
    · rw [if_pos hc]
      obtain ⟨sub, hs, he⟩ := dedupPoints_sublist zipOf (zipOf p.lat p.lng) rest
      exact ⟨p :: sub, List.Sublist.cons₂ p hs, by rw [List.map_cons, he]⟩
    · rw [if_neg hc]
      obtain ⟨sub, hs, he⟩ := dedupPoints_sublist zipOf lz rest
      exact ⟨sub, List.Sublist.cons p hs, he⟩

/-- C2: for a request with at least two resolved addresses and any sampler
output, the deduplicated route path has length at least 2, starts at the
origin stop (`is_stop = true`), ends at the destination stop
(`is_stop = true`), and its inserted points form a sublist of the sampler
output that is monotone in cumulative travel distance. -/
theorem route_path_endpoints_and_monotone (zipOf : ℚ → ℚ → Option Zip)
    (coordinates : List Coord) (route : List Leg) (q : ℚ)
    (pts : List SamplePoint) (_hc : 2 ≤ coordinates.length) (hq : 0 < q)
    (hds : ∀ leg ∈ route, ∀ s ∈ leg.steps, 0 ≤ s.distance)
    (hpts : calculate_route_points route q = .ok pts) :
    2 ≤ (buildRoutePath zipOf coordinates pts).length ∧
      (buildRoutePath zipOf coordinates pts).head? =
        some ⟨(coordinates.headD default).lat, (coordinates.headD default).lon,
          (coordinates.headD default).address, true⟩ ∧
      (buildRoutePath zipOf coordinates pts).getLast? =
        some ⟨(coordinates.getLastD default).lat,
          (coordinates.getLastD default).lon,
          (coordinates.getLastD default).address, true⟩ ∧
      ∃ sub : List SamplePoint, sub.Sublist pts ∧
        buildRoutePath zipOf coordinates pts =
          ⟨(coordinates.headD default).lat, (coordinates.headD default).lon,
              (coordinates.headD default).address, true⟩ ::
            (sub.map (fun p => ⟨p.lat, p.lng, "Route Point", false⟩) ++
              [⟨(coordinates.getLastD default).lat,
                (coordinates.getLastD default).lon,
                (coordinates.getLastD default).address, true⟩]) ∧
        List.Chain' (fun a b => a.distance ≤ b.distance) sub := by
  have him : 0 < q * 1609.34 := mul_pos hq (by norm_num)
  rw [calculate_route_points] at hpts
  have hpaths := sampleSteps_ok_paths hpts
  have hds' : ∀ s ∈ stepsOfRoute route, 0 ≤ s.distance := by
    intro s hs
    rw [stepsOfRoute, List.mem_flatten] at hs
    obtain ⟨l, hl, hsl⟩ := hs
    obtain ⟨leg, hleg, rfl⟩ := List.mem_map.mp hl
    exact hds leg hleg s hsl
  have hspec : pts = specRoutePoints (q * 1609.34) 0 (stepsOfRoute route) := by
    have h2 := sampleSteps_eq_spec (q * 1609.34) him (stepsOfRoute route) 0 hpaths
    rw [hpts] at h2
    exact Except.ok.inj h2
  have hchain : List.Chain' (fun a b => a.distance ≤ b.distance) pts := by
    rw [hspec]
    exact (specRoutePoints_bounds _ him _ 0 hds').2
  obtain ⟨sub, hsub, he⟩ := dedupPoints_sublist zipOf
    (zipOf (coordinates.headD default).lat (coordinates.headD default).lon) pts
  haveI : IsTrans SamplePoint (fun a b => a.distance ≤ b.distance) :=
    ⟨fun _ _ _ h1 h2 => le_trans h1 h2⟩
  refine ⟨?_, rfl, ?_, sub, hsub, ?_, hchain.sublist hsub⟩
  · rw [buildRoutePath]
    simp
  · rw [buildRoutePath]
    rw [← List.cons_append]
    exact List.getLast?_concat _
  · rw [buildRoutePath]
    rw [he]

theorem route_path_endpoints_and_monotone_witness :
    2 ≤ [(⟨1, 1, "a"⟩ : Coord), ⟨2, 2, "b"⟩].length ∧ (0 : ℚ) < 1 ∧
      (∀ leg ∈ witRoute, ∀ s ∈ leg.steps, (0 : ℚ) ≤ s.distance) ∧
      calculate_route_points witRoute 1 =
        .ok (specRoutePoints (1 * 1609.34) 0 (stepsOfRoute witRoute)) ∧
      (2 ≤ (buildRoutePath (fun _ _ => (none : Option ℕ))
          [⟨1, 1, "a"⟩, ⟨2, 2, "b"⟩]
          (specRoutePoints (1 * 1609.34) 0 (stepsOfRoute witRoute))).length ∧
        (buildRoutePath (fun _ _ => (none : Option ℕ)) [⟨1, 1, "a"⟩, ⟨2, 2, "b"⟩]
            (specRoutePoints (1 * 1609.34) 0 (stepsOfRoute witRoute))).head? =
          some ⟨([(⟨1, 1, "a"⟩ : Coord), ⟨2, 2, "b"⟩].headD default).lat,
            ([(⟨1, 1, "a"⟩ : Coord), ⟨2, 2, "b"⟩].headD default).lon,
            ([(⟨1, 1, "a"⟩ : Coord), ⟨2, 2, "b"⟩].headD default).address, true⟩ ∧
        (buildRoutePath (fun _ _ => (none : Option ℕ)) [⟨1, 1, "a"⟩, ⟨2, 2, "b"⟩]
            (specRoutePoints (1 * 1609.34) 0 (stepsOfRoute witRoute))).getLast? =
          some ⟨([(⟨1, 1, "a"⟩ : Coord), ⟨2, 2, "b"⟩].getLastD default).lat,
            ([(⟨1, 1, "a"⟩ : Coord), ⟨2, 2, "b"⟩].getLastD default).lon,
            ([(⟨1, 1, "a"⟩ : Coord), ⟨2, 2, "b"⟩].getLastD default).address,
            true⟩ ∧
        ∃ sub : List SamplePoint,
          sub.Sublist (specRoutePoints (1 * 1609.34) 0 (stepsOfRoute witRoute)) ∧
          buildRoutePath (fun _ _ => (none : Option ℕ)) [⟨1, 1, "a"⟩, ⟨2, 2, "b"⟩]
              (specRoutePoints (1 * 1609.34) 0 (stepsOfRoute witRoute)) =
            ⟨([(⟨1, 1, "a"⟩ : Coord), ⟨2, 2, "b"⟩].headD default).lat,
                ([(⟨1, 1, "a"⟩ : Coord), ⟨2, 2, "b"⟩].headD default).lon,
                ([(⟨1, 1, "a"⟩ : Coord), ⟨2, 2, "b"⟩].headD default).address,
                true⟩ ::
              (sub.map (fun p => ⟨p.lat, p.lng, "Route Point", false⟩) ++
                [⟨([(⟨1, 1, "a"⟩ : Coord), ⟨2, 2, "b"⟩].getLastD default).lat,
                  ([(⟨1, 1, "a"⟩ : Coord), ⟨2, 2, "b"⟩].getLastD default).lon,
                  ([(⟨1, 1, "a"⟩ : Coord), ⟨2, 2, "b"⟩].getLastD default).address,
                  true⟩]) ∧
          List.Chain' (fun a b => a.distance ≤ b.distance) sub) :=
  ⟨by norm_num, by norm_num, by decide,
    by rw [calculate_route_points]
       exact sampleSteps_eq_spec _ (by norm_num) _ 0 (by decide),
    route_path_endpoints_and_monotone (fun _ _ => (none : Option ℕ))
      [⟨1, 1, "a"⟩, ⟨2, 2, "b"⟩] witRoute 1 _ (by norm_num) (by norm_num)
      (by decide)
      (by rw [calculate_route_points]
          exact sampleSteps_eq_spec _ (by norm_num) _ 0 (by decide))⟩

theorem dedupPoints_nonstop_chain (zipOf : ℚ → ℚ → Option Zip) :
    ∀ (pts : List SamplePoint) (lz : Option Zip),
      (∀ s ∈ dedupPoints zipOf lz pts,
        s.is_stop = false ∧ (zipOf s.lat s.lon).isSome) ∧
      (∀ s, (dedupPoints zipOf lz pts).head? = some s →
        zipOf s.lat s.lon ≠ lz) ∧
      List.Chain' (fun a b => zipOf a.lat a.lon ≠ zipOf b.lat b.lon)
        (dedupPoints zipOf lz pts)
  | [], lz => by simp [dedupPoints]
  | p :: rest, lz => by
    rw [dedupPoints]
    by_cases hcond : (zipOf p.lat p.lng).isSome ∧ zipOf p.lat p.lng ≠ lz
    · rw [if_pos hcond]
      obtain ⟨ih1, ih2, ih3⟩ :=
        dedupPoints_nonstop_chain zipOf rest (zipOf p.lat p.lng)
      refine ⟨?_, ?_, ?_⟩
      · intro s hs
        rcases List.mem_cons.mp hs with rfl | hs'
        · exact ⟨rfl, hcond.1⟩
        · exact ih1 s hs'
      · intro s hsh
        rw [List.head?_cons] at hsh
        injection hsh with he
        rw [← he]
        exact hcond.2
      · rw [List.chain'_cons']
        refine ⟨?_, ih3⟩
        intro y hy
        exact fun hEq => ih2 y (Option.mem_def.mp hy) hEq.symm
    · rw [if_neg hcond]
      exact dedupPoints_nonstop_chain zipOf rest lz

/-- C3: during deduplication a non-stop RouteStop is emitted if and only if
the point's reverse-geocoded postal code is present and differs from
`last_postal`, in which case `last_postal` is updated to it (first
conjunct, the loop-step characterization); consequently every emitted stop
has `is_stop = false` and a present postal code, and no two consecutive
emitted stops share the same postal code (second conjunct). -/
theorem dedup_rule_and_no_consecutive_same_zip (zipOf : ℚ → ℚ → Option Zip) :
    (∀ (lz : Option Zip) (p : SamplePoint) (rest : List SamplePoint),
      dedupPoints zipOf lz (p :: rest) =
        match zipOf p.lat p.lng with
        | some z =>
          if some z ≠ lz then
            ⟨p.lat, p.lng, "Route Point", false⟩ ::
              dedupPoints zipOf (some z) rest
          else dedupPoints zipOf lz rest
        | none => dedupPoints zipOf lz rest) ∧
    (∀ (lz : Option Zip) (pts : List SamplePoint),
      (∀ s ∈ dedupPoints zipOf lz pts,
        s.is_stop = false ∧ (zipOf s.lat s.lon).isSome) ∧
      List.Chain' (fun a b => zipOf a.lat a.lon ≠ zipOf b.lat b.lon)
        (dedupPoints zipOf lz pts)) := by
  constructor
  · intro lz p rest
    rw [dedupPoints]
    rcases h : zipOf p.lat p.lng with _ | z
    · simp [h]
    · by_cases hz : (some z : Option Zip) = lz
      · simp [h, hz]
      · simp [h, hz]
  · intro lz pts
    obtain ⟨h1, _h2, h3⟩ := dedupPoints_nonstop_chain zipOf pts lz
    exact ⟨h1, h3⟩

/-- A postal-code oracle keyed on latitude, used to instantiate the dedup
theorems: latitude 1 resolves to zip 1, latitude 2 fails to resolve, and
anything else resolves to zip 2. -/
def zipSeq : ℚ → ℚ → Option ℕ := fun la _ =>
  if la = 1 then some 1 else if la = 2 then none else some 2

theorem dedup_rule_and_no_consecutive_same_zip_witness :
    ((⟨1, 0, "Route Point", false⟩ : RouteStop).is_stop = false ∧
      (zipSeq (1 : ℚ) (0 : ℚ)).isSome) ∧
    List.Chain' (fun a b => zipSeq a.lat a.lon ≠ zipSeq b.lat b.lon)
      (dedupPoints zipSeq none [⟨1, 0, 0⟩, ⟨2, 0, 1⟩, ⟨3, 0, 2⟩]) :=
  ⟨((dedup_rule_and_no_consecutive_same_zip zipSeq).2 none
      [⟨1, 0, 0⟩, ⟨2, 0, 1⟩, ⟨3, 0, 2⟩]).1
      ⟨1, 0, "Route Point", false⟩ (by decide),
    ((dedup_rule_and_no_consecutive_same_zip zipSeq).2 none
      [⟨1, 0, 0⟩, ⟨2, 0, 1⟩, ⟨3, 0, 2⟩]).2⟩

/-! ## Properties of the weather-enrichment loop (claims C4, C5, C8, C10) -/

theorem weatherStep_fields (zipOf : ℚ → ℚ → Option Zip)
    (backend : Zip → Except String BackendResp) (avail : Bool)
    (p : RouteStop) :
    (weatherStep zipOf backend avail p).1.lat = p.lat ∧
    (weatherStep zipOf backend avail p).1.lon = p.lon ∧
    (weatherStep zipOf backend avail p).1.address = p.address ∧
    (weatherStep zipOf backend avail p).1.is_stop = p.is_stop := by
  cases avail <;> simp [weatherStep]

/-- C10: weather enrichment is a pure annotation pass over the
deduplicated route: the output has exactly the same length and order as
`route_path`, and each entry's `lat`, `lon`, `address` and `is_stop` equal
those of the corresponding `route_path` entry; only `weather` and
`zip_code` are added. -/
theorem enrichment_preserves_route (zipOf : ℚ → ℚ → Option Zip)
    (backend : Zip → Except String BackendResp) :
    ∀ (stops : List RouteStop) (avail : Bool),
      (addWeather zipOf backend avail stops).length = stops.length ∧
      ∀ i : ℕ, ((addWeather zipOf backend avail stops).get? i).map
          (fun e => (e.lat, e.lon, e.address, e.is_stop)) =
        (stops.get? i).map (fun p => (p.lat, p.lon, p.address, p.is_stop))
  | [], avail => by simp [addWeather]
  | p :: rest, avail => by
    rw [addWeather]
    obtain ⟨ih1, ih2⟩ := enrichment_preserves_route zipOf backend rest
      (weatherStep zipOf backend avail p).2
    refine ⟨by simp [ih1], ?_⟩
    intro i
    cases i with
    | zero =>
      obtain ⟨h1, h2, h3, h4⟩ := weatherStep_fields zipOf backend avail p
      simp [h1, h2, h3, h4]
    | succ n => simpa using ih2 n

/-- C4 counterexample: with a backend returning a snapshot whose
`temperatureC` is null but whose `temperatureF` is present, the breaker
still flips, so "flips exactly when both temperature fields are null" is
false on the code. -/
def zipOne : ℚ → ℚ → Option ℕ := fun _ _ => some 1

def backendCnull : ℕ → Except String BackendResp :=
  fun _ => .ok ⟨none, some 72, "Cloudy", none⟩

def stopA : RouteStop := ⟨0, 0, "a", true⟩

def stopB : RouteStop := ⟨1, 1, "b", true⟩

theorem breaker_flip_counterexample :
    (weatherStep zipOne backendCnull true stopA).2 = false ∧
    (weatherStep zipOne backendCnull true stopA).1.weather =
      some ⟨some 1, none, some 72, "Cloudy", some "US"⟩ := by
  exact ⟨rfl, rfl⟩

/-- C4 (amended): with the breaker closed, it flips to false exactly when
the fetched weather dict is present and its `temperatureC` is null
(`temperatureF` is not consulted); the triggering dict, even degraded, is
attached to the current stop, and only subsequent stops see the new
breaker state. -/
theorem breaker_flip_rule (zipOf : ℚ → ℚ → Option Zip)
    (backend : Zip → Except String BackendResp) (p : RouteStop)
    (rest : List RouteStop) :
    ((weatherStep zipOf backend true p).2 = false ↔
      ∃ w, get_weather_data zipOf backend p.lat p.lon = some w ∧
        w.temperatureC = none) ∧
    (weatherStep zipOf backend true p).1.weather =
      get_weather_data zipOf backend p.lat p.lon ∧
    addWeather zipOf backend true (p :: rest) =
      (weatherStep zipOf backend true p).1 ::
        addWeather zipOf backend (weatherStep zipOf backend true p).2 rest := by
  refine ⟨?_, by simp [weatherStep], by rw [addWeather]⟩
  cases h : get_weather_data zipOf backend p.lat p.lon with
  | none => simp [weatherStep, h]
  | some w => cases hc : w.temperatureC <;> simp [weatherStep, h, hc]

theorem weatherStep_snd_false (zipOf : ℚ → ℚ → Option Zip)
    (backend : Zip → Except String BackendResp) (p : RouteStop) :
    (weatherStep zipOf backend false p).2 = false := rfl

/-- Every entry produced with the breaker open carries the synthesized
sentinel snapshot (no `country` key, both temperatures null). -/
theorem addWeather_false_entries (zipOf : ℚ → ℚ → Option Zip)
    (backend : Zip → Except String BackendResp) :
    ∀ (stops : List RouteStop) (e : RouteEntry Zip),
      e ∈ addWeather zipOf backend false stops →
      e.weather = some ⟨zipOf e.lat e.lon, none, none,
        "Weather service unavailable", none⟩
  | [], e => by simp [addWeather]
  | p :: rest, e => by
    rw [addWeather]
    intro he
    rcases List.mem_cons.mp he with rfl | he'
    · simp [weatherStep]
    · rw [weatherStep_snd_false] at he'
      exact addWeather_false_entries zipOf backend rest e he'

theorem weatherStep_degraded_flips (zipOf : ℚ → ℚ → Option Zip)
    (backend : Zip → Except String BackendResp) (avail : Bool)
    (p : RouteStop) {w : Weather Zip}
    (hw : (weatherStep zipOf backend avail p).1.weather = some w)
    (hC : w.temperatureC = none) :
    (weatherStep zipOf backend avail p).2 = false := by
  cases avail with
  | false => rfl
  | true =>
    have hgw : get_weather_data zipOf backend p.lat p.lon = some w := by
      simpa [weatherStep] using hw
    simp [weatherStep, hgw, hC]

/-- C5: within a single request the degradation is monotone. The first
conjunct: the breaker never transitions back from false to true. The
second conjunct: once an entry carries a snapshot with both temperature
fields null, every later entry carries the synthesized sentinel snapshot
(null temperatures, sentinel summary, produced without a backend call). -/
theorem degradation_monotone (zipOf : ℚ → ℚ → Option Zip)
    (backend : Zip → Except String BackendResp) :
    (∀ p : RouteStop, (weatherStep zipOf backend false p).2 = false) ∧
    ∀ (stops : List RouteStop) (avail : Bool) (i j : ℕ)
      (e e' : RouteEntry Zip) (w : Weather Zip),
      (addWeather zipOf backend avail stops).get? i = some e →
      e.weather = some w → w.temperatureC = none → w.temperatureF = none →
      i < j → (addWeather zipOf backend avail stops).get? j = some e' →
      e'.weather = some ⟨zipOf e'.lat e'.lon, none, none,
        "Weather service unavailable", none⟩ := by
  refine ⟨fun p => rfl, ?_⟩
  intro stops
  induction stops with
  | nil =>
    intro avail i j e e' w hi
    rw [addWeather] at hi
    simp at hi
  | cons p rest ih =>
    intro avail i j e e' w hi hw hC _hF hij hj
    rw [addWeather] at hi hj
    cases i with
    | zero =>
      rw [List.get?_cons_zero] at hi
      injection hi with hi
      subst hi
      have hflip : (weatherStep zipOf backend avail p).2 = false :=
        weatherStep_degraded_flips zipOf backend avail p hw hC
      obtain ⟨j', rfl⟩ : ∃ j', j = j' + 1 := ⟨j - 1, by omega⟩
      rw [List.get?_cons_succ, hflip] at hj
      exact addWeather_false_entries zipOf backend rest e' (List.get?_mem hj)
    | succ i' =>
      obtain ⟨j', rfl⟩ : ∃ j', j = j' + 1 := ⟨j - 1, by omega⟩
      rw [List.get?_cons_succ] at hi hj
      exact ih (weatherStep zipOf backend avail p).2 i' j' e e' w hi hw hC _hF
        (by omega) hj

def backendErr : ℕ → Except String BackendResp := fun _ => .error "boom"

theorem degradation_monotone_witness :
    (weatherStep zipOne backendErr false stopA).2 = false ∧
    (⟨1, 1, "b", true,
        some ⟨some 1, none, none, "Weather service unavailable", none⟩,
        some 1⟩ : RouteEntry ℕ).weather =
      some ⟨zipOne 1 1, none, none, "Weather service unavailable", none⟩ :=
  ⟨(degradation_monotone zipOne backendErr).1 stopA,
    (degradation_monotone zipOne backendErr).2 [stopA, stopB] true 0 1
      ⟨0, 0, "a", true,
        some ⟨some 1, none, none, "Weather service unavailable", some "US"⟩,
        some 1⟩
      ⟨1, 1, "b", true,
        some ⟨some 1, none, none, "Weather service unavailable", none⟩,
        some 1⟩
      ⟨some 1, none, none, "Weather service unavailable", some "US"⟩
      (by decide) (by decide) (by decide) (by decide) (by decide) (by decide)⟩

theorem get_weather_data_none_iff (zipOf : ℚ → ℚ → Option Zip)
    (backend : Zip → Except String BackendResp) (lat lon : ℚ) :
    get_weather_data zipOf backend lat lon = none ↔ zipOf lat lon = none := by
  rw [get_weather_data]
  rcases h : zipOf lat lon with _ | z
  · simp
  · rcases hb : backend z with e | wd <;> simp [hb]

/-- C8 (amended): every entry of the enrichment output has a weather
field; it can be null (not a snapshot), but only when the point's postal
lookup fails while the breaker is still closed — in particular, whenever
the postal lookup succeeds for every stop, every entry carries some
snapshot (at worst an "unavailable" sentinel). -/
theorem weather_attachment (zipOf : ℚ → ℚ → Option Zip)
    (backend : Zip → Except String BackendResp) :
    ∀ (stops : List RouteStop) (avail : Bool),
      (∀ e ∈ addWeather zipOf backend avail stops,
        e.weather = none → zipOf e.lat e.lon = none) ∧
      ((∀ p ∈ stops, (zipOf p.lat p.lon).isSome) →
        ∀ e ∈ addWeather zipOf backend avail stops, ∃ w, e.weather = some w)
  | [], avail => by simp [addWeather]
  | p :: rest, avail => by
    rw [addWeather]
    obtain ⟨ih1, ih2⟩ := weather_attachment zipOf backend rest
      (weatherStep zipOf backend avail p).2
    constructor
    · intro e he hnone
      rcases List.mem_cons.mp he with rfl | he'
      · cases avail with
        | false => simp [weatherStep] at hnone
        | true =>
          have : get_weather_data zipOf backend p.lat p.lon = none := by
            simpa [weatherStep] using hnone
          have hz := (get_weather_data_none_iff zipOf backend p.lat p.lon).mp this
          simpa [weatherStep] using hz
      · exact ih1 e he' hnone
    · intro hz e he
      rcases List.mem_cons.mp he with rfl | he'
      · cases avail with
        | false => exact ⟨_, rfl⟩
        | true =>
          rcases hgw : get_weather_data zipOf backend p.lat p.lon with _ | w
          · have := (get_weather_data_none_iff zipOf backend p.lat p.lon).mp hgw
            have hp := hz p (by simp)
            rw [this] at hp
            simp at hp
          · exact ⟨w, by simpa [weatherStep] using hgw⟩
      · exact ih2 (fun t ht => hz t (by simp [ht])) e he'

theorem weather_attachment_witness :
    ((∀ p ∈ [stopA, stopB], (zipOne p.lat p.lon).isSome) →
      ∀ e ∈ addWeather zipOne backendErr true [stopA, stopB],
        ∃ w, e.weather = some w) ∧
    (∀ e ∈ addWeather zipOne backendErr true [stopA, stopB],
      e.weather = none → zipOne e.lat e.lon = none) :=
  ⟨(weather_attachment zipOne backendErr [stopA, stopB] true).2,
    (weather_attachment zipOne backendErr [stopA, stopB] true).1⟩

/-! ## Handler-level properties (claims C7, C8, C9) -/

/-- C7 (as evaluated on the code): under-validated requests never consult
any oracle — the result is the same for every choice of oracles — but an
empty address list is answered with the HTTP 500 produced by the
`IndexError` of the logging line, not with the 400 validation error; a
single address and an out-of-range interval do get the 400 validation
errors. -/
theorem validation_before_any_external_call
    (geocode : String → Except String (ℚ × ℚ × Option Zip))
    (directions : DirectionsQuery → List (List Leg))
    (zipOf : ℚ → ℚ → Option Zip) (backend : Zip → Except String BackendResp)
    (prefs : Preferences) (a b : String) (q : ℚ) :
    get_route_weather geocode directions zipOf backend [] q prefs =
      .serverError "list index out of range" ∧
    get_route_weather geocode directions zipOf backend [a] q prefs =
      .clientError "At least two addresses are required" ∧
    ((q < 1 ∨ q > 100) →
      get_route_weather geocode directions zipOf backend [a, b] q prefs =
        .clientError "Interval distance must be between 1 and 100 miles") := by
  refine ⟨rfl, rfl, ?_⟩
  intro hq
  rw [get_route_weather, if_neg (by simp), if_neg (by simp), if_pos hq]

/-- Concrete oracles for instantiating the handler-level theorems. -/
def geocodeOk : String → Except String (ℚ × ℚ × Option ℕ) :=
  fun a => if a = "A" then .ok (1, 1, none) else .ok (2, 2, none)

def cxRoute : List Leg := [⟨[⟨[(1, 1), (2, 2)], 5⟩]⟩]

def directionsOne : DirectionsQuery → List (List Leg) := fun _ => [cxRoute]

def zipNone : ℚ → ℚ → Option ℕ := fun _ _ => none

def backendOk : ℕ → Except String BackendResp :=
  fun _ => .ok ⟨some 20, some 68, "Sunny", some "US"⟩

def prefsNone : Preferences := ⟨false, false, false⟩

theorem validation_before_any_external_call_witness :
    ((150 : ℚ) < 1 ∨ (150 : ℚ) > 100) ∧
    get_route_weather geocodeOk directionsOne zipNone backendOk
        ["A", "B"] 150 prefsNone =
      .clientError "Interval distance must be between 1 and 100 miles" :=
  ⟨Or.inr (by norm_num),
    (validation_before_any_external_call geocodeOk directionsOne zipNone
      backendOk prefsNone "A" "B" 150).2.2 (Or.inr (by norm_num))⟩

/-- When every backend call errors and every postal lookup succeeds, every
entry produced by the enrichment loop carries a degraded snapshot with the
sentinel summary. -/
theorem addWeather_allError (zipOf : ℚ → ℚ → Option Zip)
    (backend : Zip → Except String BackendResp)
    (hb : ∀ z, ∃ e, backend z = .error e)
    (hz : ∀ lat lon, (zipOf lat lon).isSome) :
    ∀ (stops : List RouteStop) (avail : Bool),
      ∀ en ∈ addWeather zipOf backend avail stops,
        ∃ w : Weather Zip, en.weather = some w ∧ w.temperatureC = none ∧
          w.temperatureF = none ∧ w.summary = "Weather service unavailable"
  | [], avail => by simp [addWeather]
  | p :: rest, avail => by
    rw [addWeather]
    intro en hen
    rcases List.mem_cons.mp hen with rfl | hen'
    · cases avail with
      | false => exact ⟨_, rfl, rfl, rfl, rfl⟩
      | true =>
        obtain ⟨z, hzo⟩ := Option.isSome_iff_exists.mp (hz p.lat p.lon)
        obtain ⟨e, hbe⟩ := hb z
        refine ⟨⟨some z, none, none, "Weather service unavailable",
          some "US"⟩, ?_, rfl, rfl, rfl⟩
        simp [weatherStep, get_weather_data, hzo, hbe]
    · exact addWeather_allError zipOf backend hb hz rest _ en hen'

/-- C9: when the weather backend errors for a postal code,
`get_weather_data` does not propagate the error but returns the sentinel
snapshot carrying that postal code, null temperatures and the fixed
summary; and when every backend call errors (with postal lookups
succeeding) the handler still returns a successful route whose entries all
carry such degraded snapshots. -/
theorem backend_errors_degrade_not_propagate
    (geocode : String → Except String (ℚ × ℚ × Option Zip))
    (directions : DirectionsQuery → List (List Leg))
    (zipOf : ℚ → ℚ → Option Zip) (backend : Zip → Except String BackendResp)
    (addresses : List String) (q : ℚ) (prefs : Preferences)
    (coordinates : List Coord) (r : List Leg) (rs : List (List Leg))
    (pts : List SamplePoint)
    (hb : ∀ z, ∃ e, backend z = .error e)
    (hz : ∀ lat lon, (zipOf lat lon).isSome)
    (hlen : 2 ≤ addresses.length) (hq1 : 1 ≤ q) (hq2 : q ≤ 100)
    (hres : resolveAll geocode addresses = .ok coordinates)
    (hdir : directions (mkQuery coordinates prefs) = r :: rs)
    (hsamp : calculate_route_points r q = .ok pts) :
    (∀ (lat lon : ℚ) (z : Zip), zipOf lat lon = some z →
      ∀ e : String, backend z = .error e →
        get_weather_data zipOf backend lat lon =
          some ⟨some z, none, none, "Weather service unavailable",
            some "US"⟩) ∧
    ∃ route, get_route_weather geocode directions zipOf backend
        addresses q prefs = .ok route ∧
      ∀ en ∈ route, ∃ w : Weather Zip, en.weather = some w ∧
        w.temperatureC = none ∧ w.temperatureF = none ∧
        w.summary = "Weather service unavailable" := by
  constructor
  · intro lat lon z hzo e hbe
    simp [get_weather_data, hzo, hbe]
  · have hne : addresses ≠ [] := by
      intro h
      rw [h] at hlen
      exact absurd hlen (by norm_num)
    have h1 : ¬ (addresses.isEmpty = true) :=
      fun h => hne (List.isEmpty_iff.mp h)
    have h2 : ¬ (addresses.length < 2) := by omega
    have h3 : ¬ (q < 1 ∨ q > 100) := by
      push_neg
      exact ⟨hq1, hq2⟩
    refine ⟨addWeather zipOf backend true
      (buildRoutePath zipOf coordinates pts), ?_, ?_⟩
    · rw [get_route_weather, if_neg h1, if_neg h2, if_neg h3]
      simp only [hres, hdir, hsamp]
    · exact addWeather_allError zipOf backend hb hz _ true

/-- Evaluates the sampler on the concrete one-step route: the step is
shorter than a 10-mile interval, so only its final vertex is emitted. -/
theorem cxRoute_points : calculate_route_points cxRoute 10 = .ok [⟨2, 2, 5⟩] := by
  rw [calculate_route_points]
  show sampleSteps (10 * 1609.34) 0 [⟨[(1, 1), (2, 2)], 5⟩] = _
  rw [sampleSteps, sampleStep, if_neg (by norm_num)]
  norm_num [pyGet]
  rfl

theorem backend_errors_degrade_not_propagate_witness :
    (∀ z : ℕ, ∃ e, backendErr z = .error e) ∧
    (∀ lat lon : ℚ, (zipOne lat lon).isSome) ∧
    2 ≤ (["A", "B"] : List String).length ∧ (1 : ℚ) ≤ 10 ∧ (10 : ℚ) ≤ 100 ∧
    resolveAll geocodeOk ["A", "B"] = .ok [⟨1, 1, "A"⟩, ⟨2, 2, "B"⟩] ∧
    directionsOne (mkQuery [⟨1, 1, "A"⟩, ⟨2, 2, "B"⟩] prefsNone) =
      cxRoute :: [] ∧
    calculate_route_points cxRoute 10 = .ok [⟨2, 2, 5⟩] ∧
    ∃ route, get_route_weather geocodeOk directionsOne zipOne backendErr
        ["A", "B"] 10 prefsNone = .ok route ∧
      ∀ en ∈ route, ∃ w : Weather ℕ, en.weather = some w ∧
        w.temperatureC = none ∧ w.temperatureF = none ∧
        w.summary = "Weather service unavailable" :=
  ⟨fun z => ⟨"boom", rfl⟩, fun _ _ => rfl, by norm_num, by norm_num,
    by norm_num, by decide, rfl, cxRoute_points,
    (backend_errors_degrade_not_propagate geocodeOk directionsOne zipOne
      backendErr ["A", "B"] 10 prefsNone [⟨1, 1, "A"⟩, ⟨2, 2, "B"⟩] cxRoute
      [] [⟨2, 2, 5⟩] (fun z => ⟨"boom", rfl⟩) (fun _ _ => rfl) (by norm_num)
      (by norm_num) (by norm_num) (by decide) rfl cxRoute_points).2⟩

/-- C8 counterexample: a successful handler response in which both route
stops carry a null weather field — the postal lookup failed while the
breaker was still closed, so `get_weather_data` returned `None` and the
code attached `weather: None` — refuting "never an absent/null weather
field in a successful response". -/
theorem null_weather_in_success_counterexample :
    get_route_weather geocodeOk directionsOne zipNone backendOk
        ["A", "B"] 10 prefsNone =
      .ok [⟨1, 1, "A", true, none, none⟩, ⟨2, 2, "B", true, none, none⟩] := by
  rw [get_route_weather, if_neg (by decide), if_neg (by decide),
    if_neg (by decide)]
  simp only [show resolveAll geocodeOk ["A", "B"] =
      .ok [⟨1, 1, "A"⟩, ⟨2, 2, "B"⟩] from by decide]
  simp only [show directionsOne (mkQuery [⟨1, 1, "A"⟩, ⟨2, 2, "B"⟩]
      prefsNone) = [cxRoute] from rfl]
  simp only [cxRoute_points]
  decide

/-! ## Degenerate steps (claim C6) -/

/-- C6 counterexample: a step whose decoded path has zero vertices makes
the sampler index out of bounds (`path[-1]` raises `IndexError`, a 500 at
request level) instead of producing a degenerate SamplePoint at the step's
end location. -/
theorem empty_path_counterexample :
    calculate_route_points [⟨[⟨[], 5⟩]⟩] 1 =
      .error "list index out of range" := by
  rw [calculate_route_points]
  show sampleSteps (1 * 1609.34) 0 [⟨[], 5⟩] = _
  rw [sampleSteps, sampleStep, if_neg (by norm_num), pyGet_nil]

/-- C6 (amended): a step with exactly one path vertex never indexes out of
bounds — every emitted SamplePoint lies at that vertex, and exactly one
point (at distance `total + step_distance`) is emitted when the step's
distance is at most the interval — while a step with zero path vertices
raises an `IndexError` that aborts the sampler instead of yielding a
degenerate point. -/
theorem degenerate_path_steps (interval_m total : ℚ) (s : Step)
    (him : 0 < interval_m) :
    (s.path = [] →
      sampleStep interval_m total s = .error "list index out of range") ∧
    (∀ v : ℚ × ℚ, s.path = [v] →
      ∃ pts, sampleStep interval_m total s = .ok pts ∧ pts ≠ [] ∧
        (∀ p ∈ pts, p.lat = v.1 ∧ p.lng = v.2) ∧
        (s.distance ≤ interval_m →
          pts = [⟨v.1, v.2, total + s.distance⟩])) := by
  constructor
  · intro hnil
    rw [sampleStep]
    by_cases hgt : s.distance > interval_m
    · rw [if_pos hgt]
      simp only []
      rw [show List.range (⌈s.distance / interval_m⌉.toNat + 1) =
          0 :: (List.range ⌈s.distance / interval_m⌉.toNat).map Nat.succ from
          List.range_succ_eq_map _,
        collectPoints, samplePointAt_nil_error s total _ 0 hnil]
    · rw [if_neg hgt, hnil, pyGet_nil]
  · intro v hv
    refine ⟨specStepPoints interval_m total s,
      sampleStep_eq_spec interval_m total s him (by rw [hv]; simp),
      ?_, ?_, ?_⟩
    · rw [specStepPoints]
      by_cases hle : s.distance ≤ interval_m
      · simp [hle]
      · rw [if_neg hle]
        simp
    · intro p hp
      rw [specStepPoints] at hp
      by_cases hle : s.distance ≤ interval_m
      · rw [if_pos hle] at hp
        simp only [List.mem_singleton] at hp
        subst hp
        rw [hv]
        exact ⟨rfl, rfl⟩
      · rw [if_neg hle] at hp
        simp only [List.mem_map] at hp
        obtain ⟨i, _, rfl⟩ := hp
        constructor <;> simp [hv]
    · intro hle
      rw [specStepPoints, if_pos hle, hv]
      rfl

theorem degenerate_path_steps_witness :
    (0 : ℚ) < 1609.34 ∧
    sampleStep 1609.34 0 ⟨[], 5⟩ = .error "list index out of range" ∧
    ∃ pts, sampleStep 1609.34 0 ⟨[((3 : ℚ), (4 : ℚ))], 5000⟩ = .ok pts ∧
      pts ≠ [] ∧ (∀ p ∈ pts, p.lat = 3 ∧ p.lng = 4) ∧
      ((5000 : ℚ) ≤ 1609.34 → pts = [⟨3, 4, 0 + 5000⟩]) :=
  ⟨by norm_num,
    (degenerate_path_steps 1609.34 0 ⟨[], 5⟩ (by norm_num)).1 rfl,
    (degenerate_path_steps 1609.34 0 ⟨[((3 : ℚ), (4 : ℚ))], 5000⟩
      (by norm_num)).2 (3, 4) rfl⟩

end RouteWeather
